import Mathlib

/-!
Verification of the SABnzbd Terraform provider's reconciliation and
transport layer, shallowly embedded from the Go sources
(`internal/client` and `internal/provider`).

Conventions of the embedding:
* Go `url.Values` (only ever used through `Set`) is modelled as an
  association list `Params` whose `set` replaces any existing binding.
* Go `int` is modelled as `Int`; `strconv.Itoa` / `fmt.Sprintf("%d", _)`
  as the decimal printer `itoa` below.
* JSON values decoded into `map[string]interface{}` are modelled by the
  inductive `Json` type (numbers as integers, which is the granularity
  the provider relies on).
* Fallible Go functions returning `(T, error)` are modelled as
  `Except String T` (the error message string) or with a structured
  `ClientError` where the distinction API-error / transport-error
  matters.
-/

namespace Sabnzbd

/-! ### `url.Values` restricted to the operations the provider uses -/

/-- Model of Go's `url.Values` as used by this code base: an association
list of keys to single values (only `Set` is ever called, never `Add`). -/
abbrev Params := List (String × String)

namespace Params

def empty : Params := []

/-- `url.Values.Set`: replace any existing binding for `k` by `v`. -/
def set (p : Params) (k v : String) : Params :=
  p.filter (fun kv => kv.1 != k) ++ [(k, v)]

/-- Value bound to a key, if any. -/
def get (p : Params) (k : String) : Option String :=
  (p.find? (fun kv => kv.1 == k)).map (·.2)

/-- Whether a key occurs in the parameter map. -/
def hasKey (p : Params) (k : String) : Bool :=
  p.any (fun kv => kv.1 == k)

theorem find?_filter_ne (p : Params) (k' k : String) (hk : k' ≠ k) :
    (p.filter (fun kv => kv.1 != k')).find? (fun kv => kv.1 == k)
      = p.find? (fun kv => kv.1 == k) := by
  induction p with
  | nil => rfl
  | cons x xs ih =>
    by_cases hx : x.1 = k'
    · have hxk : x.1 ≠ k := fun h => hk (hx.symm.trans h)
      simp [List.filter_cons, List.find?_cons, hx, hxk, ih, hk, Ne.symm hk]
    · by_cases hxk : x.1 = k
      · simp [List.filter_cons, List.find?_cons, hx, hxk, hk, Ne.symm hk]
      · simp [List.filter_cons, List.find?_cons, hx, hxk, ih, hk, Ne.symm hk]

theorem get_set (p : Params) (k' v k : String) :
    (p.set k' v).get k = if k' == k then some v else p.get k := by
  unfold get set
  rw [List.find?_append]
  by_cases hk : k' = k
  · subst hk
    have hnone : (p.filter (fun kv => kv.1 != k')).find? (fun kv => kv.1 == k') = none := by
      apply List.find?_eq_none.mpr
      intro kv hkv
      have := List.of_mem_filter hkv
      simpa using this
    simp [hnone]
  · rw [find?_filter_ne p k' k hk]
    have hlast : (([(k', v)] : Params).find? (fun kv => kv.1 == k)) = none := by
      simp [List.find?_cons, hk]
    simp [hlast, hk]

theorem hasKey_eq_isSome_get (p : Params) (k : String) :
    p.hasKey k = (p.get k).isSome := by
  unfold hasKey get
  induction p with
  | nil => rfl
  | cons x xs ih =>
    by_cases hx : x.1 = k
    · simp [List.any_cons, List.find?_cons, hx]
    · simp [List.any_cons, List.find?_cons, hx, ih]

theorem hasKey_set (p : Params) (k' v k : String) :
    (p.set k' v).hasKey k = ((k' == k) || p.hasKey k) := by
  rw [hasKey_eq_isSome_get, get_set, hasKey_eq_isSome_get]
  by_cases h : k' = k <;> simp [h]

@[simp] theorem hasKey_empty (k : String) : Params.empty.hasKey k = false := rfl

@[simp] theorem get_empty (k : String) : Params.empty.get k = none := rfl

theorem hasKey_ite (c : Prop) [Decidable c] (a b : Params) (k : String) :
    (if c then a else b).hasKey k = if c then a.hasKey k else b.hasKey k :=
  apply_ite (fun p => hasKey p k) c a b

theorem get_ite (c : Prop) [Decidable c] (a b : Params) (k : String) :
    (if c then a else b).get k = if c then a.get k else b.get k :=
  apply_ite (fun p => get p k) c a b

end Params

/-! ### Decimal serialization (`strconv.Itoa`) and its inverse -/

/-- Decimal digit character (`'0'` + d). -/
def digitChar (d : Nat) : Char := Char.ofNat (48 + d)

/-- Numeric value of a decimal digit character. -/
def digitVal (c : Char) : Nat := c.toNat - 48

/-- Decimal digit string of a natural number, most significant first. -/
def natToDigits (n : Nat) : List Char :=
  if _h : n < 10 then [digitChar n]
  else natToDigits (n / 10) ++ [digitChar (n % 10)]
  decreasing_by exact Nat.div_lt_self (by omega) (by norm_num)

/-- Model of Go's `strconv.Itoa` (also `fmt.Sprintf("%d", _)`): standard
decimal notation with a leading `'-'` for negative values. -/
def itoa (i : Int) : String :=
  if i < 0 then ⟨'-' :: natToDigits i.natAbs⟩ else ⟨natToDigits i.toNat⟩

/-- Left fold accumulating decimal digits. -/
def parseNatDigits (cs : List Char) : Nat :=
  cs.foldl (fun acc c => acc * 10 + digitVal c) 0

/-- Decimal parser, the inverse direction used by the modelled remote
when it interprets a numeric form value sent by `set_config`. -/
def parseInt (s : String) : Int :=
  match s.data with
  | [] => 0
  | c :: cs => if c = '-' then -(parseNatDigits cs : Int) else (parseNatDigits (c :: cs) : Int)

theorem digitVal_digitChar : ∀ d, d < 10 → digitVal (digitChar d) = d := by decide

theorem parseNatDigits_append (l : List Char) (c : Char) :
    parseNatDigits (l ++ [c]) = parseNatDigits l * 10 + digitVal c := by
  unfold parseNatDigits
  simp

theorem parseNatDigits_natToDigits (n : Nat) :
    parseNatDigits (natToDigits n) = n := by
  induction n using Nat.strong_induction_on with
  | _ n ih =>
    rw [natToDigits]
    split
    · next h =>
      simp [parseNatDigits, digitVal_digitChar n h]
    · next h =>
      rw [parseNatDigits_append,
        ih (n / 10) (Nat.div_lt_self (by omega) (by norm_num)),
        digitVal_digitChar _ (Nat.mod_lt _ (by norm_num))]
      omega

theorem natToDigits_head (n : Nat) :
    ∃ d rest, natToDigits n = digitChar d :: rest ∧ d < 10 := by
  induction n using Nat.strong_induction_on with
  | _ n ih =>
    rw [natToDigits]
    split
    · next h => exact ⟨n, [], rfl, h⟩
    · next h =>
      obtain ⟨d, rest, heq, hd⟩ := ih (n / 10) (Nat.div_lt_self (by omega) (by norm_num))
      exact ⟨d, rest ++ [digitChar (n % 10)], by rw [heq]; rfl, hd⟩

theorem digitChar_ne_dash : ∀ d, d < 10 → digitChar d ≠ '-' := by decide

theorem parseInt_mk (c : Char) (cs : List Char) :
    parseInt ⟨c :: cs⟩ =
      if c = '-' then -(parseNatDigits cs : Int) else (parseNatDigits (c :: cs) : Int) :=
  rfl

theorem parseInt_itoa (i : Int) : parseInt (itoa i) = i := by
  unfold itoa
  by_cases hi : i < 0
  · rw [if_pos hi, parseInt_mk, if_pos rfl, parseNatDigits_natToDigits]
    omega
  · rw [if_neg hi]
    obtain ⟨d, rest, heq, hd⟩ := natToDigits_head i.toNat
    rw [heq, parseInt_mk, if_neg (digitChar_ne_dash d hd), ← heq,
      parseNatDigits_natToDigits]
    omega

/-- `boolToInt` from `internal/client/server.go`. -/
def boolToInt (b : Bool) : String :=
  if b then "1" else "0"

/-! ### JSON values and the transport layer (`internal/client/client.go`) -/

/-- JSON values as decoded by `encoding/json` into `interface{}`.
Numbers are modelled at integer granularity, which is the precision the
provider's type-checked lookups rely on. -/
inductive Json where
  | null
  | bool (b : Bool)
  | num (n : Int)
  | str (s : String)
  | arr (elems : List Json)
  | obj (fields : List (String × Json))

/-- Lookup of an object key; the last binding wins, matching
`encoding/json`'s duplicate-key behaviour. -/
def jsonLookup (fields : List (String × Json)) (k : String) : Option Json :=
  fields.foldl (fun acc kv => if kv.1 = k then some kv.2 else acc) none

/-- `json.Unmarshal(body, &errorResp)` with
`errorResp : struct { Error string `json:"error"` }`:
`some e` models a nil-error unmarshal leaving `Error = e` (the zero value
`""` when the field is absent or null); `none` models a failing
unmarshal (non-object body, or an `error` field of non-string type). -/
def unmarshalErrorField : Json → Option String
  | .null => some ""
  | .obj fields =>
    match jsonLookup fields "error" with
    | none => some ""
    | some (.str s) => some s
    | some .null => some ""
    | some _ => none
  | _ => none

/-- Errors surfaced by the client: remote-reported API errors
(`client.APIError`) versus everything the transport wraps itself. -/
inductive ClientError where
  | api (message : String)
  | transport (message : String)
  deriving DecidableEq

/-- The body-handling phase of `Client.doRequest`, after the HTTP
response bytes have been read: `body = none` models bytes that are not
valid JSON (every unmarshal fails), `body = some j` a well-formed JSON
body.  `decodeResult` is the caller-supplied result shape:
`json.Unmarshal(body, result)` succeeds iff it returns `some`. -/
def doRequestDecode {α : Type} (body : Option Json) (decodeResult : Json → Option α) :
    Except ClientError α :=
  match body with
  | none =>
    -- the error-shape unmarshal fails, so the error check is skipped,
    -- and the result-shape unmarshal fails as well
    .error (.transport "decoding response")
  | some j =>
    match unmarshalErrorField j with
    | some e =>
      if e ≠ "" then .error (.api e)
      else
        match decodeResult j with
        | some r => .ok r
        | none => .error (.transport "decoding response")
    | none =>
      match decodeResult j with
      | some r => .ok r
      | none => .error (.transport "decoding response")

/-! ### Client construction and request URL building -/

/-- `strings.TrimSuffix`: drop `suffix` from the end of `s` when present. -/
def trimSuffix (s suffix : String) : String :=
  if suffix.data.isSuffixOf s.data then ⟨s.data.take (s.data.length - suffix.data.length)⟩
  else s

/-- The state of `client.Client` that determines request URLs (the
embedded `http.Client` carries no URL-relevant state). -/
structure Client where
  baseURL : String
  apiKey : String
  deriving DecidableEq

/-- `client.NewClient`: strips a single trailing `/` from the base URL. -/
def NewClient (baseURL apiKey : String) : Client :=
  { baseURL := trimSuffix baseURL "/", apiKey := apiKey }

/-- One character of `url.QueryEscape` (byte-level escaping, modelled on
the ASCII range the provider's parameters live in). -/
def queryEscapeChar (c : Char) : List Char :=
  if c.isAlphanum || c = '-' || c = '_' || c = '.' || c = '~' then [c]
  else if c = ' ' then ['+']
  else
    let hexDigit := fun (n : Nat) => if n < 10 then digitChar n else Char.ofNat (65 + (n - 10))
    ['%', hexDigit (c.toNat / 16 % 16), hexDigit (c.toNat % 16)]

/-- `url.QueryEscape`. -/
def queryEscape (s : String) : String :=
  ⟨(s.data.map queryEscapeChar).flatten⟩

/-- Insertion into a key-sorted parameter list. -/
def insortByKey (kv : String × String) : Params → Params
  | [] => [kv]
  | x :: xs =>
    match compare kv.1 x.1 with
    | .gt => x :: insortByKey kv xs
    | _ => kv :: x :: xs

/-- `url.Values.Encode`: keys sorted, each `key=value` escaped and
joined with `&`. -/
def encodeParams (p : Params) : String :=
  String.intercalate "&"
    ((p.foldr insortByKey []).map (fun kv => queryEscape kv.1 ++ "=" ++ queryEscape kv.2))

/-- The parameters `doRequest` sends: the caller's parameters with the
authentication key and the JSON output marker set. -/
def requestParams (c : Client) (params : Params) : Params :=
  (params.set "apikey" c.apiKey).set "output" "json"

/-- The request URL built by `doRequest`:
`fmt.Sprintf("%s/api?%s", c.baseURL, params.Encode())`. -/
def requestURL (c : Client) (params : Params) : String :=
  c.baseURL ++ "/api?" ++ encodeParams (requestParams c params)

/-! ### Data model (`internal/client/config.go`) -/

/-- `client.Server`: the remote read shape of a news server (booleans
arrive as JSON integers). -/
structure Server where
  name : String
  host : String
  port : Int
  username : String
  password : String
  connections : Int
  ssl : Int
  sslVerify : Int
  sslCiphers : String
  enable : Int
  optional : Int
  retention : Int
  timeout : Int
  priority : Int
  required : Int
  notes : String
  deriving DecidableEq

/-- `client.Category`: the remote read shape of a download category. -/
structure Category where
  name : String
  dir : String
  script : String
  priority : Int
  pp : String
  order : Int
  deriving DecidableEq

/-- `client.Config`: the configuration snapshot returned by
`get_config`.  The `rss` and `sorters` sections exist in the source but
are never read by any provider operation, so they are omitted from the
embedding. -/
structure Config where
  misc : List (String × Json)
  servers : List Server
  categories : List Category

/-- `client.Folders`: the remote read shape of the folders settings
(`auto_resume` and `dirscan_speed` arrive as JSON numbers). -/
structure Folders where
  downloadDir : String
  downloadFree : String
  completeDir : String
  completeFree : String
  autoResume : Int
  permissions : String
  watchedDir : String
  watchedDirScanSpeed : Int
  scriptsDir : String
  emailTemplatesDir : String
  passwordFile : String
  nzbBackupDir : String
  adminDir : String
  backupDir : String
  logDir : String
  deriving DecidableEq

/-! ### Server client operations (`internal/client/server.go`) -/

/-- `client.ServerInput`. -/
structure ServerInput where
  name : String
  host : String
  port : Int
  username : String
  password : String
  connections : Int
  ssl : Bool
  sslVerify : Int
  sslCiphers : String
  enable : Bool
  optional : Bool
  retention : Int
  timeout : Int
  priority : Int
  required : Bool
  notes : String
  deriving DecidableEq

/-- The parameter map built by `Client.SetServer`. -/
def setServerParams (input : ServerInput) : Params :=
  (((((((((((((((((Params.empty.set
    "mode" "set_config").set
    "section" "servers").set
    "name" input.name).set
    "host" input.host).set
    "port" (itoa input.port)).set
    "username" input.username).set
    "password" input.password).set
    "connections" (itoa input.connections)).set
    "ssl" (boolToInt input.ssl)).set
    "ssl_verify" (itoa input.sslVerify)).set
    "ssl_ciphers" input.sslCiphers).set
    "enable" (boolToInt input.enable)).set
    "optional" (boolToInt input.optional)).set
    "retention" (itoa input.retention)).set
    "timeout" (itoa input.timeout)).set
    "priority" (itoa input.priority)).set
    "required" (boolToInt input.required)).set
    "notes" input.notes

/-- Model of `fmt`'s `%q` verb on the printable strings that occur as
entity names: Go-syntax double quoting. -/
def goQuote (s : String) : String :=
  ⟨'"' :: (s.data.map (fun c =>
    if c = '"' then ['\\', '"'] else if c = '\\' then ['\\', '\\'] else [c])).flatten ++ ['"']⟩

/-- `Client.GetServer` on a fetched snapshot: linear search of the
servers collection by name. -/
def getServer (cfg : Config) (name : String) : Except String Server :=
  match cfg.servers.find? (fun s => s.name == name) with
  | some s => .ok s
  | none => .error ("server " ++ goQuote name ++ " not found")

/-! ### Category client operations (`internal/client/category.go`) -/

/-- `client.CategoryInput`. -/
structure CategoryInput where
  name : String
  dir : String
  script : String
  priority : Int
  pp : String
  order : Int
  deriving DecidableEq

/-- The parameter map built by `Client.SetCategory`. -/
def setCategoryParams (input : CategoryInput) : Params :=
  (((((((Params.empty.set
    "mode" "set_config").set
    "section" "categories").set
    "name" input.name).set
    "dir" input.dir).set
    "script" input.script).set
    "priority" (itoa input.priority)).set
    "pp" input.pp).set
    "order" (itoa input.order)

/-- `Client.GetCategory` on a fetched snapshot: linear search of the
categories collection by name. -/
def getCategory (cfg : Config) (name : String) : Except String Category :=
  match cfg.categories.find? (fun c => c.name == name) with
  | some c => .ok c
  | none => .error ("category " ++ goQuote name ++ " not found")

/-! ### Folders client operations (`internal/client/folders.go`) -/

/-- `client.FoldersInput`. -/
structure FoldersInput where
  downloadDir : String
  downloadFree : String
  completeDir : String
  completeFree : String
  autoResume : Bool
  permissions : String
  watchedDir : String
  watchedDirScanSpeed : Int
  scriptsDir : String
  emailTemplatesDir : String
  passwordFile : String
  nzbBackupDir : String
  adminDir : String
  backupDir : String
  logDir : String
  deriving DecidableEq

/-- The parameter map built by `Client.SetFolders`: string fields are
sent only when non-empty, the scan speed only when non-negative, and
`auto_resume` unconditionally. -/
def setFoldersParams (input : FoldersInput) : Params :=
  let p := (Params.empty.set "mode" "set_config").set "section" "misc"
  let p := if input.downloadDir ≠ "" then p.set "download_dir" input.downloadDir else p
  let p := if input.downloadFree ≠ "" then p.set "download_free" input.downloadFree else p
  let p := if input.completeDir ≠ "" then p.set "complete_dir" input.completeDir else p
  let p := if input.completeFree ≠ "" then p.set "complete_free" input.completeFree else p
  let p := p.set "auto_resume" (boolToInt input.autoResume)
  let p := if input.permissions ≠ "" then p.set "permissions" input.permissions else p
  let p := if input.watchedDir ≠ "" then p.set "dirscan_dir" input.watchedDir else p
  let p := if input.watchedDirScanSpeed ≥ 0 then
    p.set "dirscan_speed" (itoa input.watchedDirScanSpeed) else p
  let p := if input.scriptsDir ≠ "" then p.set "script_dir" input.scriptsDir else p
  let p := if input.emailTemplatesDir ≠ "" then p.set "email_dir" input.emailTemplatesDir else p
  let p := if input.passwordFile ≠ "" then p.set "password_file" input.passwordFile else p
  let p := if input.nzbBackupDir ≠ "" then p.set "nzb_backup_dir" input.nzbBackupDir else p
  let p := if input.adminDir ≠ "" then p.set "admin_dir" input.adminDir else p
  let p := if input.backupDir ≠ "" then p.set "backup_dir" input.backupDir else p
  let p := if input.logDir ≠ "" then p.set "log_dir" input.logDir else p
  p

/-- The type-checked string lookup `misc[k].(string)`: the value when
the key maps to a string, the zero value `""` otherwise. -/
def miscString (misc : List (String × Json)) (k : String) : String :=
  match jsonLookup misc k with
  | some (.str s) => s
  | _ => ""

/-- The type-checked numeric lookup `misc[k].(float64)` followed by the
`int` conversion: the value when the key maps to a number, the zero
value `0` otherwise. -/
def miscNum (misc : List (String × Json)) (k : String) : Int :=
  match jsonLookup misc k with
  | some (.num n) => n
  | _ => 0

/-- The `Folders` value `Client.GetFolders` extracts from the `misc`
section of a snapshot. -/
def foldersFromMisc (misc : List (String × Json)) : Folders :=
  { downloadDir := miscString misc "download_dir"
    downloadFree := miscString misc "download_free"
    completeDir := miscString misc "complete_dir"
    completeFree := miscString misc "complete_free"
    autoResume := miscNum misc "auto_resume"
    permissions := miscString misc "permissions"
    watchedDir := miscString misc "dirscan_dir"
    watchedDirScanSpeed := miscNum misc "dirscan_speed"
    scriptsDir := miscString misc "script_dir"
    emailTemplatesDir := miscString misc "email_dir"
    passwordFile := miscString misc "password_file"
    nzbBackupDir := miscString misc "nzb_backup_dir"
    adminDir := miscString misc "admin_dir"
    backupDir := miscString misc "backup_dir"
    logDir := miscString misc "log_dir" }

/-- `Client.GetFolders`: propagate a failed `GetConfig`, otherwise
extract the folders projection from the `misc` map. -/
def getFolders (configResult : Except String Config) : Except String Folders :=
  match configResult with
  | .error e => .error e
  | .ok cfg => .ok (foldersFromMisc cfg.misc)

/-! ### Modelled remote for the category round trip

The remote SABnzbd instance is external to this repository.  For the
round-trip property it is modelled as a store that keeps, for a
`set_config` call on the categories section, exactly the sent field
values under the sent name (numeric form values interpreted as the
decimal integers they denote). -/

/-- The category the modelled remote stores for a categories
`set_config` parameter map. -/
def categoryOfParams (p : Params) : Category :=
  { name := (p.get "name").getD ""
    dir := (p.get "dir").getD ""
    script := (p.get "script").getD ""
    priority := parseInt ((p.get "priority").getD "0")
    pp := (p.get "pp").getD ""
    order := parseInt ((p.get "order").getD "0") }

/-- The modelled remote's reaction to `Client.SetCategory`: the stored
category list after the call, replacing an existing category of the
same name or appending a new one. -/
def applySetCategory (cfg : Config) (p : Params) : Config :=
  let cat := categoryOfParams p
  { cfg with categories :=
      if cfg.categories.any (fun c => c.name == cat.name) then
        cfg.categories.map (fun c => if c.name == cat.name then cat else c)
      else
        cfg.categories ++ [cat] }

/-! ### Provider layer (`internal/provider`) -/

/-- The resource kinds this repository implements a constructor for. -/
inductive ResourceKind where
  | server
  | category
  | folders
  deriving DecidableEq

/-- The resource constructors defined in package `provider`:
`NewServerResource`, `NewCategoryResource`, `NewFoldersResource`. -/
def definedResourceConstructors : List ResourceKind :=
  [.server, .category, .folders]

/-- `SabnzbdProvider.Resources`: the list of resource constructors the
provider registers with the host framework
(`provider.go`, returning `NewServerResource, NewCategoryResource`). -/
def providerResources : List ResourceKind :=
  [.server, .category]

/-- `provider.ServerResourceModel`: the Terraform-side state of a
`sabnzbd_server` resource. -/
structure ServerResourceModel where
  name : String
  host : String
  port : Int
  username : String
  password : String
  connections : Int
  ssl : Bool
  sslVerify : Int
  sslCiphers : String
  enable : Bool
  optional : Bool
  retention : Int
  timeout : Int
  priority : Int
  required : Bool
  notes : String
  deriving DecidableEq

/-- The state written by `ServerResource.Read` after a successful
`GetServer`: every attribute is replaced by the remote value except
`password`, which the API never returns and which is left at the value
from the prior state, and `name`, which was the lookup key. -/
def serverReadState (data : ServerResourceModel) (server : Server) : ServerResourceModel :=
  { data with
    host := server.host
    port := server.port
    username := server.username
    -- password deliberately not assigned
    connections := server.connections
    ssl := server.ssl == 1
    sslVerify := server.sslVerify
    sslCiphers := server.sslCiphers
    enable := server.enable == 1
    optional := server.optional == 1
    retention := server.retention
    timeout := server.timeout
    priority := server.priority
    required := server.required == 1
    notes := server.notes }

/-- `provider.FoldersResourceModel`: the Terraform-side state of the
singleton `sabnzbd_folders` resource. -/
structure FoldersResourceModel where
  id : String
  downloadDir : String
  downloadFree : String
  completeDir : String
  completeFree : String
  autoResume : Bool
  permissions : String
  watchedDir : String
  watchedDirScanSpeed : Int
  scriptsDir : String
  emailTemplatesDir : String
  passwordFile : String
  nzbBackupDir : String
  adminDir : String
  backupDir : String
  logDir : String
  deriving DecidableEq

/-- The state written by `FoldersResource.Create` after a successful
`SetFolders`: the planned values with the synthetic identity. -/
def foldersCreateState (plan : FoldersResourceModel) : FoldersResourceModel :=
  { plan with id := "folders" }

/-- The state written by `FoldersResource.Update` after a successful
`SetFolders`: the planned values with the synthetic identity. -/
def foldersUpdateState (plan : FoldersResourceModel) : FoldersResourceModel :=
  { plan with id := "folders" }

/-- The state written by `FoldersResource.Read` after a successful
`GetFolders`: every attribute replaced by the remote value, and the
synthetic identity reasserted. -/
def foldersReadState (_state : FoldersResourceModel) (folders : Folders) :
    FoldersResourceModel :=
  { id := "folders"
    downloadDir := folders.downloadDir
    downloadFree := folders.downloadFree
    completeDir := folders.completeDir
    completeFree := folders.completeFree
    autoResume := folders.autoResume == 1
    permissions := folders.permissions
    watchedDir := folders.watchedDir
    watchedDirScanSpeed := folders.watchedDirScanSpeed
    scriptsDir := folders.scriptsDir
    emailTemplatesDir := folders.emailTemplatesDir
    passwordFile := folders.passwordFile
    nzbBackupDir := folders.nzbBackupDir
    adminDir := folders.adminDir
    backupDir := folders.backupDir
    logDir := folders.logDir }

/-! ## Helper lemmas -/

/-- A lenient string lookup on a key that is absent or not bound to a
string yields the zero value. -/
theorem miscString_default (misc : List (String × Json)) (k : String)
    (h : ∀ s, jsonLookup misc k ≠ some (Json.str s)) :
    miscString misc k = "" := by
  unfold miscString
  cases hl : jsonLookup misc k with
  | none => rfl
  | some j => cases j <;> first | rfl | exact absurd hl (h _)

/-- A lenient numeric lookup on a key that is absent or not bound to a
number yields the zero value. -/
theorem miscNum_default (misc : List (String × Json)) (k : String)
    (h : ∀ n, jsonLookup misc k ≠ some (Json.num n)) :
    miscNum misc k = 0 := by
  unfold miscNum
  cases hl : jsonLookup misc k with
  | none => rfl
  | some j => cases j <;> first | rfl | exact absurd hl (h _)

/-- Replacing every category of the stored name makes the stored
category the first hit of a linear search, provided the name occurred. -/
theorem find?_map_overwrite (cat : Category) :
    ∀ l : List Category, l.any (fun c => c.name == cat.name) = true →
      (l.map (fun c => if c.name == cat.name then cat else c)).find?
        (fun c => c.name == cat.name) = some cat := by
  intro l
  induction l with
  | nil => intro h; simp at h
  | cons x xs ih =>
    intro h
    simp only [List.map_cons]
    by_cases hx : x.name = cat.name
    · rw [if_pos (by simp [hx])]
      exact List.find?_cons_of_pos _ (by simp)
    · rw [if_neg (by simp [hx])]
      rw [List.find?_cons_of_neg _ (by simp [hx])]
      exact ih (by simpa [List.any_cons, hx] using h)

/-- Appending the stored category makes it the first hit of a linear
search, provided the name did not occur. -/
theorem find?_append_new (cat : Category) :
    ∀ l : List Category, l.any (fun c => c.name == cat.name) = false →
      (l ++ [cat]).find? (fun c => c.name == cat.name) = some cat := by
  intro l
  induction l with
  | nil => exact fun _ => List.find?_cons_of_pos _ (by simp)
  | cons x xs ih =>
    intro h
    rw [List.cons_append, List.find?_cons_of_neg _ (by simp_all [List.any_cons])]
    exact ih (by simp_all [List.any_cons])

/-- The modelled category store (replace-or-append) always makes the
stored category the first hit of a linear search for its name. -/
theorem find?_store (l : List Category) (cat : Category) :
    (if l.any (fun c => c.name == cat.name) then
       l.map (fun c => if c.name == cat.name then cat else c)
     else l ++ [cat]).find? (fun c => c.name == cat.name) = some cat := by
  by_cases hany : l.any (fun c => c.name == cat.name)
  · rw [if_pos hany]
    exact find?_map_overwrite cat l hany
  · rw [if_neg hany]
    exact find?_append_new cat l (by simpa using hany)

/-- Storing a categories `set_config` call and searching for the stored
name finds exactly the stored category. -/
theorem getCategory_applySet (cfg : Config) (p : Params) :
    getCategory (applySetCategory cfg p) (categoryOfParams p).name =
      Except.ok (categoryOfParams p) := by
  unfold getCategory applySetCategory
  rw [find?_store]

theorem trimSuffix_of_not_suffix (b : String) (h : ("/".data.isSuffixOf b.data) = false) :
    trimSuffix b "/" = b := by
  unfold trimSuffix
  rw [if_neg (by simp [h])]

theorem trimSuffix_append_slash (b : String) : trimSuffix (b ++ "/") "/" = b := by
  have hslash : ("/" : String).data = ['/'] := rfl
  have hdata : (b ++ "/").data = b.data ++ ['/'] := by
    rw [String.data_append, hslash]
  unfold trimSuffix
  rw [if_pos (by rw [hdata, hslash]; simp [List.isSuffixOf])]
  rw [hdata, hslash]
  simp only [List.length_append, List.length_singleton, List.length_cons, List.length_nil,
    Nat.add_sub_cancel]
  rw [List.take_left]

/-! ## Claims -/

/-- **C1** (code_bug evidence): the provider's registered resource list
(`SabnzbdProvider.Resources`) contains the server and category
constructors but *not* the folders constructor, although
`NewFoldersResource` is among the constructors the package defines (and
the README documents `sabnzbd_folders`).  The claim that folders is
registered alongside server and category fails on the code. -/
theorem providerResources_omit_folders :
    providerResources.contains ResourceKind.server = true ∧
    providerResources.contains ResourceKind.category = true ∧
    providerResources.contains ResourceKind.folders = false ∧
    definedResourceConstructors.contains ResourceKind.folders = true := by
  decide

/-- **C2**: whenever the response body is a JSON object whose top-level
`error` field is a non-empty string, `doRequest` returns an API error
carrying exactly that string — for *every* caller result shape
`decodeResult`, so the body is never decoded as a success, even when it
would decode successfully. -/
theorem doRequest_error_precedence {α : Type} (fields : List (String × Json)) (msg : String)
    (decodeResult : Json → Option α)
    (hlookup : jsonLookup fields "error" = some (Json.str msg)) (hne : msg ≠ "") :
    doRequestDecode (some (Json.obj fields)) decodeResult =
      Except.error (ClientError.api msg) := by
  simp [doRequestDecode, unmarshalErrorField, hlookup, hne]

theorem doRequest_error_precedence_witness :
    jsonLookup [("error", Json.str "API Key Incorrect")] "error" =
      some (Json.str "API Key Incorrect") ∧
    ("API Key Incorrect" : String) ≠ "" ∧
    doRequestDecode (some (Json.obj [("error", Json.str "API Key Incorrect")]))
      (fun j => some j) = Except.error (ClientError.api "API Key Incorrect") :=
  ⟨rfl, by decide, doRequest_error_precedence _ _ _ rfl (by decide)⟩

/-- **C3**: writing a category with `SetCategory` and reading it back
with `GetCategory` — against a remote modelled as storing exactly the
sent field values under the sent name — returns a category equal to the
input on every field; no category field is write-only. -/
theorem category_round_trip (cfg : Config) (input : CategoryInput) :
    getCategory (applySetCategory cfg (setCategoryParams input)) input.name =
      Except.ok { name := input.name, dir := input.dir, script := input.script,
                  priority := input.priority, pp := input.pp, order := input.order } := by
  have hcat : categoryOfParams (setCategoryParams input) =
      { name := input.name, dir := input.dir, script := input.script,
        priority := input.priority, pp := input.pp, order := input.order } := by
    unfold categoryOfParams setCategoryParams
    simp [Params.get_set, parseInt_itoa]
  have h := getCategory_applySet cfg (setCategoryParams input)
  rw [hcat] at h
  simpa using h

/-- **C4**: after a successful `ServerResource.Read`, the password in
the resulting state equals the prior state's password (the remote value,
always empty, never overwrites it), while every other attribute is
replaced by the remote-returned value. -/
theorem serverRead_preserves_password (data : ServerResourceModel) (server : Server)
    (_hpw : data.password ≠ "") :
    (serverReadState data server).password = data.password ∧
    (serverReadState data server).host = server.host ∧
    (serverReadState data server).port = server.port ∧
    (serverReadState data server).username = server.username ∧
    (serverReadState data server).connections = server.connections ∧
    (serverReadState data server).ssl = (server.ssl == 1) ∧
    (serverReadState data server).sslVerify = server.sslVerify ∧
    (serverReadState data server).sslCiphers = server.sslCiphers ∧
    (serverReadState data server).enable = (server.enable == 1) ∧
    (serverReadState data server).optional = (server.optional == 1) ∧
    (serverReadState data server).retention = server.retention ∧
    (serverReadState data server).timeout = server.timeout ∧
    (serverReadState data server).priority = server.priority ∧
    (serverReadState data server).required = (server.required == 1) ∧
    (serverReadState data server).notes = server.notes :=
  ⟨rfl, rfl, rfl, rfl, rfl, rfl, rfl, rfl, rfl, rfl, rfl, rfl, rfl, rfl, rfl⟩

theorem serverRead_preserves_password_witness :
    (("hunter2" : String) ≠ "") ∧
    (serverReadState
      ⟨"s1", "old.example.com", 119, "user", "hunter2", 8, true, 2, "", true, false, 0, 60, 0,
        false, ""⟩
      ⟨"s1", "news.example.com", 563, "user2", "", 20, 1, 2, "c", 1, 0, 100, 30, 1, 0, "n"⟩).password
      = "hunter2" :=
  ⟨by decide,
    (serverRead_preserves_password
      ⟨"s1", "old.example.com", 119, "user", "hunter2", 8, true, 2, "", true, false, 0, 60, 0,
        false, ""⟩
      ⟨"s1", "news.example.com", 563, "user2", "", 20, 1, 2, "c", 1, 0, 100, 30, 1, 0, "n"⟩
      (by decide)).1⟩

/-- **C5**: `GetServer` and `GetCategory` on a name that matches no
server (resp. category) in the snapshot return a not-found error naming
the missing entity, and never return a zero-value result. -/
theorem get_absent_not_found (cfg : Config) (name : String)
    (hs : ∀ s ∈ cfg.servers, s.name ≠ name)
    (hc : ∀ c ∈ cfg.categories, c.name ≠ name) :
    getServer cfg name = Except.error ("server " ++ goQuote name ++ " not found") ∧
    getCategory cfg name = Except.error ("category " ++ goQuote name ++ " not found") ∧
    (∀ s, getServer cfg name ≠ Except.ok s) ∧
    (∀ c, getCategory cfg name ≠ Except.ok c) := by
  have hfs : cfg.servers.find? (fun s => s.name == name) = none :=
    List.find?_eq_none.mpr (fun s hmem => by simpa using hs s hmem)
  have hfc : cfg.categories.find? (fun c => c.name == name) = none :=
    List.find?_eq_none.mpr (fun c hmem => by simpa using hc c hmem)
  refine ⟨?_, ?_, ?_, ?_⟩ <;> simp [getServer, getCategory, hfs, hfc]

theorem get_absent_not_found_witness :
    (∀ s ∈ (⟨[], [], []⟩ : Config).servers, s.name ≠ "missing") ∧
    getServer ⟨[], [], []⟩ "missing" =
      Except.error ("server " ++ goQuote "missing" ++ " not found") :=
  ⟨by simp, (get_absent_not_found ⟨[], [], []⟩ "missing" (by simp) (by simp)).1⟩

/-- **C6**: the parameter map built by `SetFolders` contains each string
field's key iff that field is non-empty, contains `dirscan_speed` iff
the scan speed is non-negative, and always contains `auto_resume`,
serialized as `"1"`/`"0"`. -/
theorem setFolders_omit_if_empty (input : FoldersInput) :
    ((setFoldersParams input).hasKey "download_dir" = true ↔ input.downloadDir ≠ "") ∧
    ((setFoldersParams input).hasKey "download_free" = true ↔ input.downloadFree ≠ "") ∧
    ((setFoldersParams input).hasKey "complete_dir" = true ↔ input.completeDir ≠ "") ∧
    ((setFoldersParams input).hasKey "complete_free" = true ↔ input.completeFree ≠ "") ∧
    ((setFoldersParams input).hasKey "permissions" = true ↔ input.permissions ≠ "") ∧
    ((setFoldersParams input).hasKey "dirscan_dir" = true ↔ input.watchedDir ≠ "") ∧
    ((setFoldersParams input).hasKey "dirscan_speed" = true ↔ input.watchedDirScanSpeed ≥ 0) ∧
    ((setFoldersParams input).hasKey "script_dir" = true ↔ input.scriptsDir ≠ "") ∧
    ((setFoldersParams input).hasKey "email_dir" = true ↔ input.emailTemplatesDir ≠ "") ∧
    ((setFoldersParams input).hasKey "password_file" = true ↔ input.passwordFile ≠ "") ∧
    ((setFoldersParams input).hasKey "nzb_backup_dir" = true ↔ input.nzbBackupDir ≠ "") ∧
    ((setFoldersParams input).hasKey "admin_dir" = true ↔ input.adminDir ≠ "") ∧
    ((setFoldersParams input).hasKey "backup_dir" = true ↔ input.backupDir ≠ "") ∧
    ((setFoldersParams input).hasKey "log_dir" = true ↔ input.logDir ≠ "") ∧
    (setFoldersParams input).hasKey "auto_resume" = true ∧
    (setFoldersParams input).get "auto_resume" =
      some (if input.autoResume then "1" else "0") := by
  simp [setFoldersParams, Params.hasKey_set, Params.hasKey_ite, Params.get_set, Params.get_ite,
    boolToInt]

/-- **C7**: `SetServer` includes every field unconditionally, keyed by
the input's name and scoped to the servers section, serializing
booleans as `"1"`/`"0"`. -/
theorem setServer_all_fields (input : ServerInput) :
    (setServerParams input).get "mode" = some "set_config" ∧
    (setServerParams input).get "section" = some "servers" ∧
    (setServerParams input).get "name" = some input.name ∧
    (setServerParams input).get "host" = some input.host ∧
    (setServerParams input).get "port" = some (itoa input.port) ∧
    (setServerParams input).get "username" = some input.username ∧
    (setServerParams input).get "password" = some input.password ∧
    (setServerParams input).get "connections" = some (itoa input.connections) ∧
    (setServerParams input).get "ssl" = some (if input.ssl then "1" else "0") ∧
    (setServerParams input).get "ssl_verify" = some (itoa input.sslVerify) ∧
    (setServerParams input).get "ssl_ciphers" = some input.sslCiphers ∧
    (setServerParams input).get "enable" = some (if input.enable then "1" else "0") ∧
    (setServerParams input).get "optional" = some (if input.optional then "1" else "0") ∧
    (setServerParams input).get "retention" = some (itoa input.retention) ∧
    (setServerParams input).get "timeout" = some (itoa input.timeout) ∧
    (setServerParams input).get "priority" = some (itoa input.priority) ∧
    (setServerParams input).get "required" = some (if input.required then "1" else "0") ∧
    (setServerParams input).get "notes" = some input.notes := by
  simp [setServerParams, Params.get_set, boolToInt]

/-- **C8**: every successful `Create`, `Read` or `Update` of the
folders resource yields a state whose `id` is the constant `"folders"`,
regardless of any other field. -/
theorem folders_identity_constant (plan state : FoldersResourceModel) (folders : Folders) :
    (foldersCreateState plan).id = "folders" ∧
    (foldersReadState state folders).id = "folders" ∧
    (foldersUpdateState plan).id = "folders" :=
  ⟨rfl, rfl, rfl⟩

/-- **C9**: `GetFolders` succeeds on every fetched snapshot, and for
each known folders key, an absent or non-string (resp. non-number)
value leaves the corresponding field at its zero value instead of
raising an error. -/
theorem getFolders_lenient (cfg : Config) :
    getFolders (Except.ok cfg) = Except.ok (foldersFromMisc cfg.misc) ∧
    ((∀ s, jsonLookup cfg.misc "download_dir" ≠ some (Json.str s)) →
      (foldersFromMisc cfg.misc).downloadDir = "") ∧
    ((∀ s, jsonLookup cfg.misc "download_free" ≠ some (Json.str s)) →
      (foldersFromMisc cfg.misc).downloadFree = "") ∧
    ((∀ s, jsonLookup cfg.misc "complete_dir" ≠ some (Json.str s)) →
      (foldersFromMisc cfg.misc).completeDir = "") ∧
    ((∀ s, jsonLookup cfg.misc "complete_free" ≠ some (Json.str s)) →
      (foldersFromMisc cfg.misc).completeFree = "") ∧
    ((∀ n, jsonLookup cfg.misc "auto_resume" ≠ some (Json.num n)) →
      (foldersFromMisc cfg.misc).autoResume = 0) ∧
    ((∀ s, jsonLookup cfg.misc "permissions" ≠ some (Json.str s)) →
      (foldersFromMisc cfg.misc).permissions = "") ∧
    ((∀ s, jsonLookup cfg.misc "dirscan_dir" ≠ some (Json.str s)) →
      (foldersFromMisc cfg.misc).watchedDir = "") ∧
    ((∀ n, jsonLookup cfg.misc "dirscan_speed" ≠ some (Json.num n)) →
      (foldersFromMisc cfg.misc).watchedDirScanSpeed = 0) ∧
    ((∀ s, jsonLookup cfg.misc "script_dir" ≠ some (Json.str s)) →
      (foldersFromMisc cfg.misc).scriptsDir = "") ∧
    ((∀ s, jsonLookup cfg.misc "email_dir" ≠ some (Json.str s)) →
      (foldersFromMisc cfg.misc).emailTemplatesDir = "") ∧
    ((∀ s, jsonLookup cfg.misc "password_file" ≠ some (Json.str s)) →
      (foldersFromMisc cfg.misc).passwordFile = "") ∧
    ((∀ s, jsonLookup cfg.misc "nzb_backup_dir" ≠ some (Json.str s)) →
      (foldersFromMisc cfg.misc).nzbBackupDir = "") ∧
    ((∀ s, jsonLookup cfg.misc "admin_dir" ≠ some (Json.str s)) →
      (foldersFromMisc cfg.misc).adminDir = "") ∧
    ((∀ s, jsonLookup cfg.misc "backup_dir" ≠ some (Json.str s)) →
      (foldersFromMisc cfg.misc).backupDir = "") ∧
    ((∀ s, jsonLookup cfg.misc "log_dir" ≠ some (Json.str s)) →
      (foldersFromMisc cfg.misc).logDir = "") :=
  ⟨rfl,
    fun h => miscString_default _ _ h, fun h => miscString_default _ _ h,
    fun h => miscString_default _ _ h, fun h => miscString_default _ _ h,
    fun h => miscNum_default _ _ h,
    fun h => miscString_default _ _ h, fun h => miscString_default _ _ h,
    fun h => miscNum_default _ _ h,
    fun h => miscString_default _ _ h, fun h => miscString_default _ _ h,
    fun h => miscString_default _ _ h, fun h => miscString_default _ _ h,
    fun h => miscString_default _ _ h, fun h => miscString_default _ _ h,
    fun h => miscString_default _ _ h⟩

theorem getFolders_lenient_witness :
    (∀ s, jsonLookup ([] : List (String × Json)) "download_dir" ≠ some (Json.str s)) ∧
    (foldersFromMisc []).downloadDir = "" :=
  ⟨fun _ h => by simp [jsonLookup] at h,
    (getFolders_lenient ⟨[], [], []⟩).2.1 (fun _ h => by simp [jsonLookup] at h)⟩

/-- **C10** (implicit): the request URL is the base URL with a single
trailing `/` removed, followed by `/api?` and the encoded parameters,
which always carry `apikey` and `output=json`; a base URL with and
without a trailing slash produce identical requests. -/
theorem requestURL_trailing_slash (b k : String) (p : Params)
    (h : ("/".data.isSuffixOf b.data) = false) :
    requestURL (NewClient (b ++ "/") k) p = requestURL (NewClient b k) p ∧
    requestURL (NewClient b k) p =
      b ++ "/api?" ++ encodeParams ((p.set "apikey" k).set "output" "json") ∧
    (requestParams (NewClient b k) p).get "apikey" = some k ∧
    (requestParams (NewClient b k) p).get "output" = some "json" := by
  have h1 : trimSuffix b "/" = b := trimSuffix_of_not_suffix b h
  have h2 : trimSuffix (b ++ "/") "/" = b := trimSuffix_append_slash b
  refine ⟨?_, ?_, ?_, ?_⟩ <;>
    simp [requestURL, NewClient, requestParams, h1, h2, Params.get_set]

theorem requestURL_trailing_slash_witness :
    ("/".data.isSuffixOf ("http://localhost:8080" : String).data) = false ∧
    requestURL (NewClient ("http://localhost:8080" ++ "/") "testkey") [("mode", "version")] =
      requestURL (NewClient "http://localhost:8080" "testkey") [("mode", "version")] :=
  ⟨by decide,
    (requestURL_trailing_slash "http://localhost:8080" "testkey" [("mode", "version")]
      (by decide)).1⟩

end Sabnzbd
